import Mathlib

/-!
Verification of the review-driven ad-generation pipeline.

JavaScript strings are modelled as `List Char`; the primitive string
operations the pipeline uses (`trim`, `split("\n")`, `toLowerCase`,
`includes`, `startsWith`, `join`, template concatenation, decimal
rendering of numbers) are given executable definitions below, and the
pipeline stages (`preprocessReviews`, `extractInsights`,
`generateContent`, `getMoodFromBrandTone`, `generateAdImage`,
`processJob`, `POST`, `handleSubmit`) are translated from the source.
External collaborators (the text-generation service, the image models)
are modelled as oracle inputs: the pipeline code is deterministic in the
responses they return.
-/

/-- A JavaScript string, modelled as its sequence of characters. -/
abbrev Str := List Char

/-- Coerce a Lean string literal to the `Str` model. -/
def str (s : String) : Str := s.data

/-- JS `String.prototype.trim`: drop leading and trailing whitespace. -/
def trimChars (l : Str) : Str :=
  ((l.dropWhile Char.isWhitespace).reverse.dropWhile Char.isWhitespace).reverse

/-- JS `s.split("\n")`: split at newline characters; `"" → [""]`,
separators at the ends produce empty fields. -/
def splitLines : Str → List Str
  | [] => [[]]
  | c :: cs =>
    if c = '\n' then [] :: splitLines cs
    else
      match splitLines cs with
      | [] => [[c]]
      | h :: t => (c :: h) :: t

/-- ASCII lower-casing of one character (the inputs the pipeline
compares are ASCII). -/
def lowerChar (c : Char) : Char :=
  if 65 ≤ c.toNat ∧ c.toNat ≤ 90 then Char.ofNat (c.toNat + 32) else c

/-- JS `String.prototype.toLowerCase` on ASCII text. -/
def lowerChars (l : Str) : Str := l.map lowerChar

/-- JS `String.prototype.includes`: substring containment. -/
def jsIncludes : Str → Str → Bool
  | [], needle => needle.isEmpty
  | c :: cs, needle => needle.isPrefixOf (c :: cs) || jsIncludes cs needle

/-- JS `Array.prototype.join(sep)`. -/
def joinSep (sep : Str) : List Str → Str
  | [] => []
  | [x] => x
  | x :: xs => x ++ sep ++ joinSep sep xs

/-- JS `x || d` on strings: the empty string is falsy. -/
def jsOrStr (x d : Str) : Str := if x = [] then d else x

/-- JS `x || d` on numbers: zero is falsy. -/
def jsOrNat (x d : Nat) : Nat := if x = 0 then d else x

/-- JS `arr[0] || d` for a string array: `undefined` (absent) and the
empty string both fall back to the default. -/
def jsHeadOr (l : List Str) (d : Str) : Str := jsOrStr (l.headD []) d

/-- One decimal digit character, as in JS number-to-string conversion. -/
def decDigit (n : Nat) : Char := Nat.digitChar n

/-- Fuel-driven accumulator loop producing the decimal digits of `n`
(most significant first), mirroring number → string conversion. -/
def toDecAux : Nat → Nat → Str → Str
  | 0, _, acc => acc
  | fuel + 1, n, acc =>
    let d := decDigit (n % 10)
    if n < 10 then d :: acc else toDecAux fuel (n / 10) (d :: acc)

/-- JS `${n}` for a nonnegative integer: its decimal digit string. -/
def numToChars (n : Nat) : Str := toDecAux (n + 1) n []

/-! ## Data model -/

/-- The questionnaire form data (`formData` in the source). -/
structure FormData where
  businessName : Str
  businessType : List Str
  marketingGoal : List Str
  targetAudience : List Str
  advertisingPlatform : List Str
  brandTone : List Str
  reviews : Str
  preferredCTA : List Str
deriving DecidableEq

/-- The structured insight object parsed from the first AI call. -/
structure Insights where
  repeatedPhrases : List Str
  keyBenefits : List Str
  trustSignals : List Str
  customerEmotions : List Str
  importantKeywords : List Str
  reviewCount : Int
deriving DecidableEq

/-- The flat ad-copy object (`outputs.json` in the source). -/
structure AdJson where
  headlines : List Str
  bodyCopy : List Str
  cta : Str
  proofPhrases : List Str
deriving DecidableEq

/-- The image-ad descriptor (`outputs.imageAd` in the source). -/
structure ImageAd where
  headline : Str
  subheadline : Str
  cta : Str
  designStyle : Str
  imageUrl : Option Str
deriving DecidableEq

/-- The three-part generated outputs object; the sub-objects are
optional because the generation collaborator may omit them. -/
structure Outputs where
  json : Option AdJson
  marketingCopy : Option Str
  imageAd : Option ImageAd
deriving DecidableEq

/-- Job status values stored in the process queue. -/
inductive JobStatus where
  | processing
  | completed
  | error
deriving DecidableEq

/-- A job record as stored in `processQueue`. -/
structure Job where
  formData : FormData
  status : JobStatus
  createdAt : Nat
  insights : Option Insights := none
  outputs : Option Outputs := none
  errMsg : Option Str := none
deriving DecidableEq

/-- The initial record `POST` writes before running the pipeline. -/
def initJob (fd : FormData) (now : Nat) : Job :=
  { formData := fd, status := .processing, createdAt := now }

/-- Outcomes of the two text-generation collaborator calls, abstracted:
a failure message (missing credential, non-success response, missing
content, or JSON parse failure) or the parsed object. -/
structure Env where
  insightsResp : Except Str Insights
  contentResp : Except Str Outputs

/-! ## Pipeline stages (manual-review variant) -/

/-- JS `Array.prototype.indexOf`: the index of the first strictly-equal
element (the array's length when absent). -/
def jsIndexOf (self : List Str) (a : Str) : Nat :=
  List.findIdx (fun b => b = a) self

/-- `preprocessReviews` (list form): trim each review, drop empties,
then `filter((review, index, self) => self.indexOf(review) === index)`
to remove exact duplicates. -/
def jsDedup (self : List Str) : List Str :=
  (self.enum.filter (fun p => jsIndexOf self p.2 == p.1)).map Prod.snd

/-- `preprocessReviews` from the list-input variant of the route. -/
def preprocessReviews (reviews : List Str) : List Str :=
  jsDedup ((reviews.map trimChars).filter (fun review => 0 < review.length))

/-- `preprocessReviews` from the manual-text variant: split the pasted
text on newlines, then clean and deduplicate. -/
def preprocessReviewsText (reviewsText : Str) : List Str :=
  preprocessReviews (splitLines reviewsText)

/-- `extractInsights`: the collaborator response is parsed (or fails),
then `insights.reviewCount = reviews.length` overwrites whatever count
the model reported. -/
def extractInsights (reviews : List Str) (resp : Except Str Insights) :
    Except Str Insights :=
  resp.map (fun insights => { insights with reviewCount := (reviews.length : Int) })

/-- `const cta = formData.preferredCTA[0] || "Learn more"`. -/
def ctaOf (fd : FormData) : Str := jsHeadOr fd.preferredCTA (str "Learn more")

/-- `generateContent`: the collaborator response is parsed (or fails);
on success the CTA fields of `outputs.json` and `outputs.imageAd` are
forcibly set to the user's preferred CTA. -/
def generateContent (fd : FormData) (resp : Except Str Outputs) :
    Except Str Outputs :=
  resp.map (fun outputs =>
    { outputs with
      json := outputs.json.map (fun j => { j with cta := ctaOf fd }),
      imageAd := outputs.imageAd.map (fun a => { a with cta := ctaOf fd }) })

/-- The body of `processJob`'s `try` block: validate the pasted reviews,
normalize them, require at least 3, then run the two AI calls; the
first raised error aborts the rest, as a thrown exception does. -/
def runStages (fd : FormData) (env : Env) : Except Str (Insights × Outputs) :=
  if trimChars fd.reviews = [] then .error (str "No reviews provided")
  else
    let reviews := preprocessReviewsText fd.reviews
    if reviews.length < 3 then .error (str "At least 3 reviews are required")
    else
      match extractInsights reviews env.insightsResp with
      | .error e => .error e
      | .ok insights =>
        match generateContent fd env.contentResp with
        | .error e => .error e
        | .ok outputs => .ok (insights, outputs)

/-- `processJob`: on success store a fresh completed record; on any
stage failure spread the existing record and overwrite only `status`
and `error`. -/
def processJob (prev : Job) (fd : FormData) (env : Env) (now : Nat) : Job :=
  match runStages fd env with
  | .ok (insights, outputs) =>
      { formData := fd, status := .completed, insights := some insights,
        outputs := some outputs, createdAt := jsOrNat prev.createdAt now,
        errMsg := none }
  | .error msg => { prev with status := .error, errMsg := some msg }

/-! ## Job store and submission endpoint -/

/-- `jobId = job_${Date.now()}_${randomSuffix}`. -/
def jobIdOf (now : Nat) (rand : Str) : Str :=
  str "job_" ++ numToChars now ++ str "_" ++ rand

/-- JS `Map.set`: replace the value of an existing key in place,
otherwise append a new entry. -/
def setEntry : List (Str × Job) → Str → Job → List (Str × Job)
  | [], k, v => [(k, v)]
  | (k1, v1) :: rest, k, v =>
    if k1 = k then (k, v) :: rest else (k1, v1) :: setEntry rest k v

/-- JS `Map.get`. -/
def lookupEntry : List (Str × Job) → Str → Option Job
  | [], _ => none
  | (k1, v) :: rest, k => if k1 = k then some v else lookupEntry rest k

/-- The submission endpoint's response: the job record on success, an
HTTP failure when the request body could not be parsed. -/
inductive PostResult where
  | success (job : Job)
  | failure (status : Nat) (msg : Str)
deriving DecidableEq

/-- `POST`: parse the body (failures yield a 500 response before any
job record exists), create the initial record, run the pipeline
synchronously, and return the stored record. -/
def POST (store : List (Str × Job)) (body : Except Str FormData)
    (now : Nat) (rand : Str) (env : Env) : List (Str × Job) × PostResult :=
  match body with
  | .error _ => (store, .failure 500 (str "Failed to process questionnaire"))
  | .ok fd =>
    let jobId := jobIdOf now rand
    let store1 := setEntry store jobId (initJob fd now)
    let job2 := processJob (initJob fd now) fd env now
    (setEntry store1 jobId job2, .success job2)

/-! ## Client-side submission guard -/

/-- The client's decision: block with an alert, or send the form. -/
inductive SubmitAction where
  | reject (msg : Str)
  | send (fd : FormData)
deriving DecidableEq

/-- `handleSubmit` from the questionnaire page: the three client-side
validation gates, in source order, before the network call. -/
def handleSubmit (fd : FormData) : SubmitAction :=
  if fd.businessName = [] ∨ trimChars fd.reviews = [] then
    .reject (str "Please fill in Business Name and Customer Reviews")
  else if ((splitLines (trimChars fd.reviews)).filter
      (fun r => 0 < (trimChars r).length)).length < 3 then
    .reject (str "Please provide at least 3 customer reviews")
  else if fd.businessType = [] ∨ fd.marketingGoal = [] ∨ fd.targetAudience = [] ∨
      fd.advertisingPlatform = [] ∨ fd.brandTone = [] ∨ fd.preferredCTA = [] then
    .reject (str "Please select at least one option for each field")
  else
    .send fd

/-- A submission through the questionnaire page: only a form that
passes `handleSubmit` reaches the endpoint and can create a job. -/
def clientSubmit (store : List (Str × Job)) (fd : FormData)
    (now : Nat) (rand : Str) (env : Env) :
    List (Str × Job) × Option PostResult :=
  match handleSubmit fd with
  | .reject _ => (store, none)
  | .send fd1 =>
    let r := POST store (.ok fd1) now rand env
    (r.1, some r.2)

/-! ## Image synthesis (link-driven variant) -/

/-- `getMoodFromBrandTone`: lower-case the tone string and test the
four known tones by substring containment, in source order. -/
def getMoodFromBrandTone (tone : Str) : Str :=
  let toneLower := lowerChars tone
  if jsIncludes toneLower (str "professional") then str "calm, confident"
  else if jsIncludes toneLower (str "friendly") then str "warm, welcoming"
  else if jsIncludes toneLower (str "bold") then str "energetic, modern"
  else if jsIncludes toneLower (str "premium") then str "elegant, refined"
  else str "calm, confident"

/-- The brand-tone string `generateAdImage` derives the mood from:
`formData.brandTone.join(", ") || "Professional"`. -/
def moodOf (fd : FormData) : Str :=
  getMoodFromBrandTone (jsOrStr (joinSep (str ", ") fd.brandTone) (str "Professional"))

/-- One candidate image model's observed behaviour: HTTP 202 (model
loading), a success response carrying a content type, body bytes
(base64) and an error text for the non-image case, a non-success HTTP
response, or a thrown network error. -/
inductive HFResponse where
  | loading
  | okResp (contentType : Option Str) (bodyB64 : Str) (errText : Str)
  | httpError (errText : Str)
  | netError (errText : Str)
deriving DecidableEq

/-- The fixed ordered candidate model list from the source. -/
def hfModels : List Str :=
  [str "stabilityai/stable-diffusion-xl-base-1.0",
   str "runwayml/stable-diffusion-v1-5",
   str "stabilityai/stable-diffusion-2-1"]

/-- Whether a candidate's response fails to deliver a binary image. -/
def hfFails (r : HFResponse) : Bool :=
  match r with
  | .okResp (some ct) _ _ => !((str "image/").isPrefixOf ct)
  | .okResp none _ _ => true
  | _ => true

/-- The `lastError` value a failing candidate leaves behind. -/
def hfFailMsg (r : HFResponse) : Str :=
  match r with
  | .loading => str "Model is loading"
  | .okResp _ _ errText => errText
  | .httpError errText => errText
  | .netError errText => errText

/-- The aggregated message thrown when every candidate failed
(`lastError || "Unknown error"` spliced into the template). -/
def allFailedMsg (lastError : Str) : Str :=
  str "Hugging Face API error: All models failed. Last error: " ++
    jsOrStr lastError (str "Unknown error") ++
    str ". Please check your API key and model availability."

/-- The fallback loop over candidate models: return a data URL for the
first binary-image response, remember the last failure otherwise. -/
def tryModels (resp : Str → HFResponse) : List Str → Str → Except Str Str
  | [], lastError => .error (allFailedMsg lastError)
  | modelName :: rest, lastError =>
    match resp modelName with
    | .loading => tryModels resp rest (str "Model is loading")
    | .okResp (some ct) bodyB64 errText =>
      if (str "image/").isPrefixOf ct then
        .ok (str "data:" ++ ct ++ str ";base64," ++ bodyB64)
      else tryModels resp rest errText
    | .okResp none _ errText => tryModels resp rest errText
    | .httpError errText => tryModels resp rest errText
    | .netError errText => tryModels resp rest errText

/-- `generateAdImage`, abstracted over the per-model responses: a
missing credential fails up front; otherwise the fallback loop runs and
an exhausted loop's message is wrapped by the outer catch. -/
def generateAdImage (hfApiKey : Option Str) (resp : Str → HFResponse) :
    Except Str Str :=
  match hfApiKey with
  | none => .error (str "HUGGINGFACE_API_KEY environment variable is not set")
  | some _ =>
    match tryModels resp hfModels [] with
    | .ok url => .ok url
    | .error e => .error (str "Failed to generate image: " ++ e)

/-! ## Decoding helper and concrete sample data -/

/-- Decimal decoding, inverse to `numToChars`. -/
def decodeDec (l : Str) : Nat := l.foldl (fun a c => a * 10 + (c.toNat - 48)) 0

/-- A well-formed sample submission. -/
def fdSample : FormData :=
  { businessName := str "Cafe Rio", businessType := [str "Restaurant / Cafe"],
    marketingGoal := [str "More leads"], targetAudience := [str "Families"],
    advertisingPlatform := [str "Google Ads"], brandTone := [str "Friendly"],
    reviews := str "Great food\nFriendly staff\nWill return",
    preferredCTA := [str "Book now"] }

/-- A second, distinct sample submission. -/
def fdSample2 : FormData := { fdSample with businessName := str "Cafe Sol" }

/-- A submission whose pasted review text is empty. -/
def fdBlankReviews : FormData := { fdSample with reviews := str "" }

/-- A submission with two brand tones selected, `friendly` first. -/
def fdMixedTone : FormData :=
  { fdSample with brandTone := [str "friendly", str "professional"] }

/-- A submission with every categorical selection empty. -/
def fdNoSelections : FormData :=
  { fdSample with
    businessType := []
    marketingGoal := []
    targetAudience := []
    advertisingPlatform := []
    brandTone := []
    preferredCTA := [] }

/-- A submission whose three pasted review lines are all identical. -/
def fdDupReviews : FormData :=
  { fdSample with reviews := str "Great food\nGreat food\nGreat food" }

/-- A submission with the single brand tone `Bold`. -/
def fdBoldTone : FormData := { fdSample with brandTone := [str "Bold"] }

/-- A sample parsed insight object whose review count is a value the
collaborator invented. -/
def insSample : Insights :=
  { repeatedPhrases := [str "great"], keyBenefits := [str "fast service"],
    trustSignals := [str "will return"], customerEmotions := [str "joy"],
    importantKeywords := [str "food"], reviewCount := (-7 : Int) }

/-- A sample parsed outputs object whose CTA fields hold values the
collaborator chose. -/
def outsSample : Outputs :=
  { json := some { headlines := [str "h1"], bodyCopy := [str "b1"],
                   cta := str "Sign up today", proofPhrases := [str "p1"] },
    marketingCopy := some (str "copy"),
    imageAd := some { headline := str "ih", subheadline := str "is",
                      cta := str "Sign up today", designStyle := str "clean",
                      imageUrl := none } }

/-- An environment in which both AI calls succeed. -/
def envSample : Env := { insightsResp := .ok insSample, contentResp := .ok outsSample }

/-- An environment in which the first AI call fails. -/
def envFail : Env :=
  { insightsResp := .error (str "Groq API error: boom"), contentResp := .ok outsSample }

/-- Sample image-model behaviour: the first candidate returns an HTTP
error, the second is still loading, the third returns a PNG. -/
def respSample : Str → HFResponse := fun m =>
  if m = str "stabilityai/stable-diffusion-xl-base-1.0" then .httpError (str "404")
  else if m = str "runwayml/stable-diffusion-v1-5" then .loading
  else .okResp (some (str "image/png")) (str "AAAA") []

/-! ## Helper lemmas -/

theorem jsIndexOf_eq (self : List Str) (a : Str) :
    jsIndexOf self a = @List.indexOf Str instBEqOfDecidableEq a self := rfl

theorem jsDedup_sublist (l : List Str) : List.Sublist (jsDedup l) l := by
  have h1 : List.Sublist (l.enum.filter (fun p => jsIndexOf l p.2 == p.1)) l.enum :=
    List.filter_sublist l.enum
  have h2 := h1.map Prod.snd
  rwa [List.enum_map_snd] at h2

theorem enum_nodup (l : List Str) : l.enum.Nodup := by
  apply List.Nodup.of_map Prod.fst
  rw [List.enum_map_fst]
  exact List.nodup_range l.length

theorem mem_jsDedup_kept {l : List Str} {p : Nat × Str}
    (h : p ∈ l.enum.filter (fun q => jsIndexOf l q.2 == q.1)) :
    jsIndexOf l p.2 = p.1 := by
  simpa using (List.mem_filter.mp h).2

theorem jsDedup_nodup (l : List Str) : (jsDedup l).Nodup := by
  apply List.Nodup.map_on
  · intro x hx y hy hxy
    have hxi := mem_jsDedup_kept hx
    have hyi := mem_jsDedup_kept hy
    have h1 : x.1 = y.1 := by rw [← hxi, ← hyi, hxy]
    exact Prod.ext h1 hxy
  · exact (enum_nodup l).filter _

theorem jsDedup_mem_complete {l : List Str} {a : Str} (h : a ∈ l) : a ∈ jsDedup l := by
  have hlt : jsIndexOf l a < l.length := by
    rw [jsIndexOf_eq]; exact List.indexOf_lt_length.mpr h
  have hget : l[jsIndexOf l a]? = some a := by
    rw [List.getElem?_eq_getElem hlt]
    have h2 := List.indexOf_get (by rw [jsIndexOf_eq] at hlt; exact hlt)
    simp only [jsIndexOf_eq]
    simpa [List.get_eq_getElem] using h2
  have henum : (jsIndexOf l a, a) ∈ l.enum := List.mk_mem_enum_iff_getElem?.mpr hget
  have hkept : (jsIndexOf l a, a) ∈ l.enum.filter (fun q => jsIndexOf l q.2 == q.1) := by
    rw [List.mem_filter]
    exact ⟨henum, by simp⟩
  exact List.mem_map.mpr ⟨(jsIndexOf l a, a), hkept, rfl⟩

theorem jsDedup_pairwise (l : List Str) :
    (jsDedup l).Pairwise (fun a b => jsIndexOf l a < jsIndexOf l b) := by
  have h0 : l.enum.Pairwise (fun p q => p.1 < q.1) := by
    have h2 := List.pairwise_lt_range l.length
    rw [← List.enum_map_fst (l := l)] at h2
    exact List.pairwise_map.mp h2
  have h1 := h0.filter (fun q => jsIndexOf l q.2 == q.1)
  apply List.pairwise_map.mpr
  apply List.Pairwise.imp_of_mem ?_ h1
  intro a b ha hb hab
  rw [mem_jsDedup_kept ha, mem_jsDedup_kept hb]
  exact hab

theorem decDigit_toNat {m : Nat} (h : m < 10) : (decDigit m).toNat = 48 + m := by
  interval_cases m <;> rfl

theorem decDigit_ne_underscore {m : Nat} (h : m < 10) : decDigit m ≠ '_' := by
  interval_cases m <;> decide

theorem toDecAux_acc (fuel n : Nat) (acc : Str) :
    toDecAux fuel n acc = toDecAux fuel n [] ++ acc := by
  induction fuel generalizing n acc with
  | zero => simp [toDecAux]
  | succ f ih =>
    simp only [toDecAux]
    by_cases h : n < 10
    · simp [h]
    · simp only [if_neg h]
      rw [ih (n / 10) (decDigit (n % 10) :: acc), ih (n / 10) [decDigit (n % 10)]]
      simp

theorem toDecAux_fuel (f1 f2 n : Nat) (h1 : n < f1) (h2 : n < f2) :
    toDecAux f1 n [] = toDecAux f2 n [] := by
  induction f1 generalizing f2 n with
  | zero => omega
  | succ f ih =>
    cases f2 with
    | zero => omega
    | succ g =>
      simp only [toDecAux]
      by_cases h : n < 10
      · simp [h]
      · simp only [if_neg h]
        rw [toDecAux_acc f (n / 10), toDecAux_acc g (n / 10)]
        have hd : n / 10 < n := Nat.div_lt_self (by omega) (by omega)
        rw [ih g (n / 10) (by omega) (by omega)]

theorem numToChars_unfold (n : Nat) :
    numToChars n = if n < 10 then [decDigit n] else
      numToChars (n / 10) ++ [decDigit (n % 10)] := by
  by_cases h : n < 10
  · rw [if_pos h]
    simp [numToChars, toDecAux, h, Nat.mod_eq_of_lt h]
  · rw [if_neg h]
    have step : numToChars n = toDecAux n (n / 10) [decDigit (n % 10)] := by
      simp only [numToChars, toDecAux]
      rw [if_neg h]
    rw [step, toDecAux_acc]
    have hd : n / 10 < n := Nat.div_lt_self (by omega) (by omega)
    rw [toDecAux_fuel n (n / 10 + 1) (n / 10) (by omega) (by omega)]
    rfl

theorem decodeDec_append_digit (l : Str) (c : Char) :
    decodeDec (l ++ [c]) = decodeDec l * 10 + (c.toNat - 48) := by
  simp [decodeDec, List.foldl_append]

theorem decodeDec_numToChars (n : Nat) : decodeDec (numToChars n) = n := by
  induction n using Nat.strong_induction_on with
  | _ n ih =>
    rw [numToChars_unfold]
    by_cases h : n < 10
    · simp [h, decodeDec, decDigit_toNat h]
    · simp only [if_neg h]
      rw [decodeDec_append_digit, ih (n / 10) (Nat.div_lt_self (by omega) (by omega)),
        decDigit_toNat (Nat.mod_lt n (by omega))]
      omega

theorem numToChars_inj {m n : Nat} (h : numToChars m = numToChars n) : m = n := by
  have h2 := congrArg decodeDec h
  rwa [decodeDec_numToChars, decodeDec_numToChars] at h2

theorem numToChars_no_underscore (n : Nat) : '_' ∉ numToChars n := by
  induction n using Nat.strong_induction_on with
  | _ n ih =>
    rw [numToChars_unfold]
    by_cases h : n < 10
    · simp only [if_pos h, List.mem_singleton]
      exact fun hc => decDigit_ne_underscore h hc.symm
    · simp only [if_neg h, List.mem_append, List.mem_singleton]
      rintro (hc | hc)
      · exact ih (n / 10) (Nat.div_lt_self (by omega) (by omega)) hc
      · exact decDigit_ne_underscore (Nat.mod_lt n (by omega)) hc.symm

theorem split_at_underscore {xs1 xs2 ys1 ys2 : Str}
    (h1 : '_' ∉ xs1) (h2 : '_' ∉ xs2)
    (h : xs1 ++ '_' :: ys1 = xs2 ++ '_' :: ys2) : xs1 = xs2 ∧ ys1 = ys2 := by
  induction xs1 generalizing xs2 with
  | nil =>
    cases xs2 with
    | nil => simpa using h
    | cons b bs =>
      simp only [List.nil_append, List.cons_append, List.cons.injEq] at h
      have hb : '_' ∈ b :: bs := by rw [h.1]; exact List.mem_cons_self b bs
      exact (h2 hb).elim
  | cons a as ihx =>
    cases xs2 with
    | nil =>
      simp only [List.nil_append, List.cons_append, List.cons.injEq] at h
      have ha : '_' ∈ a :: as := by rw [← h.1]; exact List.mem_cons_self a as
      exact (h1 ha).elim
    | cons b bs =>
      simp only [List.cons_append, List.cons.injEq] at h
      obtain ⟨rfl, hrest⟩ := h
      have hr := ihx (fun hx => h1 (List.mem_cons_of_mem _ hx))
        (fun hx => h2 (List.mem_cons_of_mem _ hx)) hrest
      exact ⟨by rw [hr.1], hr.2⟩

theorem jobIdOf_inj {t1 t2 : Nat} {r1 r2 : Str}
    (h : jobIdOf t1 r1 = jobIdOf t2 r2) : t1 = t2 ∧ r1 = r2 := by
  simp only [jobIdOf, str, List.append_assoc] at h
  have h4 : numToChars t1 ++ '_' :: r1 = numToChars t2 ++ '_' :: r2 := by
    simpa using h
  have hs := split_at_underscore (numToChars_no_underscore t1)
    (numToChars_no_underscore t2) h4
  exact ⟨numToChars_inj hs.1, hs.2⟩

theorem lookupEntry_setEntry_self (store : List (Str × Job)) (k : Str) (v : Job) :
    lookupEntry (setEntry store k v) k = some v := by
  induction store with
  | nil => simp [setEntry, lookupEntry]
  | cons e rest ih =>
    obtain ⟨k1, v1⟩ := e
    by_cases h : k1 = k
    · simp [setEntry, lookupEntry, h]
    · simp [setEntry, lookupEntry, h, ih]

theorem lookupEntry_setEntry_ne (store : List (Str × Job)) (k k2 : Str) (v : Job)
    (h : k2 ≠ k) : lookupEntry (setEntry store k v) k2 = lookupEntry store k2 := by
  induction store with
  | nil => simp [setEntry, lookupEntry, Ne.symm h]
  | cons e rest ih =>
    obtain ⟨k1, v1⟩ := e
    by_cases h1 : k1 = k
    · subst h1
      simp [setEntry, lookupEntry, Ne.symm h]
    · simp [setEntry, lookupEntry, h1, ih]

theorem setEntry_length_absent (store : List (Str × Job)) (k : Str) (v : Job)
    (h : lookupEntry store k = none) :
    (setEntry store k v).length = store.length + 1 := by
  induction store with
  | nil => simp [setEntry]
  | cons e rest ih =>
    obtain ⟨k1, v1⟩ := e
    by_cases h1 : k1 = k
    · simp [lookupEntry, h1] at h
    · simp only [lookupEntry, if_neg h1] at h
      simp [setEntry, h1, ih h]

theorem setEntry_length_present (store : List (Str × Job)) (k : Str) (v w : Job)
    (h : lookupEntry store k = some w) :
    (setEntry store k v).length = store.length := by
  induction store with
  | nil => simp [lookupEntry] at h
  | cons e rest ih =>
    obtain ⟨k1, v1⟩ := e
    by_cases h1 : k1 = k
    · simp [setEntry, h1]
    · simp only [lookupEntry, if_neg h1] at h
      simp [setEntry, h1, ih h]

/-! ## Inversion lemmas for the pipeline -/

theorem runStages_ok {fd : FormData} {env : Env} {p : Insights × Outputs}
    (h : runStages fd env = .ok p) :
    (∃ rawIns, env.insightsResp = .ok rawIns ∧
      p.1 = { rawIns with
        reviewCount := ((preprocessReviewsText fd.reviews).length : Int) }) ∧
    (∃ rawOuts, env.contentResp = .ok rawOuts ∧
      p.2 = { rawOuts with
        json := rawOuts.json.map (fun j => { j with cta := ctaOf fd }),
        imageAd := rawOuts.imageAd.map (fun a => { a with cta := ctaOf fd }) }) := by
  simp only [runStages] at h
  by_cases h1 : trimChars fd.reviews = []
  · rw [if_pos h1] at h
    simp at h
  rw [if_neg h1] at h
  by_cases h2 : (preprocessReviewsText fd.reviews).length < 3
  · rw [if_pos h2] at h
    simp at h
  rw [if_neg h2] at h
  cases hi : env.insightsResp with
  | error e =>
    rw [hi] at h
    exact Except.noConfusion h
  | ok rawIns =>
    cases hc : env.contentResp with
    | error e =>
      rw [hi, hc] at h
      exact Except.noConfusion h
    | ok rawOuts =>
      rw [hi, hc] at h
      simp only [extractInsights, generateContent, Except.map] at h
      rw [Except.ok.injEq] at h
      subst h
      exact ⟨⟨rawIns, rfl, rfl⟩, ⟨rawOuts, rfl, rfl⟩⟩

theorem processJob_completed {prev : Job} {fd : FormData} {env : Env} {now : Nat}
    (h : (processJob prev fd env now).status = .completed) :
    ∃ p, runStages fd env = .ok p ∧
      processJob prev fd env now =
        { formData := fd, status := .completed,
          createdAt := jsOrNat prev.createdAt now,
          insights := some p.1, outputs := some p.2, errMsg := none } := by
  cases hr : runStages fd env with
  | error m => simp [processJob, hr] at h
  | ok p => exact ⟨p, rfl, by simp [processJob, hr]⟩

theorem tryModels_cons_fail {resp : Str → HFResponse} {m : Str} {rest : List Str}
    {last : Str} (h : hfFails (resp m) = true) :
    tryModels resp (m :: rest) last = tryModels resp rest (hfFailMsg (resp m)) := by
  cases hr : resp m with
  | loading => simp [tryModels, hr, hfFailMsg]
  | okResp ct body errText =>
    cases ct with
    | none => simp [tryModels, hr, hfFailMsg]
    | some s =>
      have hp : (str "image/").isPrefixOf s = false := by
        have h2 := h
        rw [hr] at h2
        simpa [hfFails] using h2
      simp [tryModels, hr, hfFailMsg, hp]
  | httpError e => simp [tryModels, hr, hfFailMsg]
  | netError e => simp [tryModels, hr, hfFailMsg]

theorem tryModels_any_success {resp : Str → HFResponse} :
    ∀ (models : List Str) (last : Str),
      (∃ m ∈ models, hfFails (resp m) = false) →
      ∃ url, tryModels resp models last = .ok url := by
  intro models
  induction models with
  | nil =>
    rintro last ⟨m, hm, _⟩
    simp at hm
  | cons m rest ih =>
    rintro last ⟨m1, hm1, hf⟩
    by_cases h : hfFails (resp m) = true
    · rw [tryModels_cons_fail h]
      apply ih
      rcases List.mem_cons.mp hm1 with rfl | hm2
      · rw [h] at hf
        cases hf
      · exact ⟨m1, hm2, hf⟩
    · have hf2 : hfFails (resp m) = false := by simpa using h
      cases hr : resp m with
      | okResp ct body errText =>
        cases ct with
        | some s =>
          have hp : (str "image/").isPrefixOf s = true := by
            rw [hr] at hf2
            simpa [hfFails] using hf2
          refine ⟨str "data:" ++ s ++ str ";base64," ++ body, ?_⟩
          simp [tryModels, hr, hp, List.append_assoc]
        | none =>
          rw [hr] at hf2
          simp [hfFails] at hf2
      | loading =>
        rw [hr] at hf2
        simp [hfFails] at hf2
      | httpError e =>
        rw [hr] at hf2
        simp [hfFails] at hf2
      | netError e =>
        rw [hr] at hf2
        simp [hfFails] at hf2

/-! ## Claims -/

/-- Claim C1: for every input list of raw review strings, the Review
Normalizer's output has no empty strings, no exact duplicates
(comparison is case-sensitive, so the spec's example keeps both
casings), is a subsequence of the cleaned input, retains every cleaned
review, and lists retained reviews in order of their first occurrence;
the newline-text variant is the same normalizer applied to the split
lines. -/
theorem C1_review_normalizer (reviews : List Str) :
    (∀ s ∈ preprocessReviews reviews, s ≠ []) ∧
    (preprocessReviews reviews).Nodup ∧
    List.Sublist (preprocessReviews reviews)
      ((reviews.map trimChars).filter (fun r => 0 < r.length)) ∧
    (∀ s ∈ (reviews.map trimChars).filter (fun r => 0 < r.length),
      s ∈ preprocessReviews reviews) ∧
    (preprocessReviews reviews).Pairwise (fun a b =>
      jsIndexOf ((reviews.map trimChars).filter (fun r => 0 < r.length)) a <
        jsIndexOf ((reviews.map trimChars).filter (fun r => 0 < r.length)) b) ∧
    (∀ txt, preprocessReviewsText txt = preprocessReviews (splitLines txt)) ∧
    preprocessReviews [str "Great service!", str "great service!", str ""] =
      [str "Great service!", str "great service!"] := by
  refine ⟨?_, jsDedup_nodup _, jsDedup_sublist _,
    fun s hs => jsDedup_mem_complete hs, jsDedup_pairwise _,
    fun txt => rfl, by decide⟩
  intro s hs
  have hs2 : s ∈ (reviews.map trimChars).filter (fun r => 0 < r.length) :=
    (jsDedup_sublist _).mem hs
  have hlen := (List.mem_filter.mp hs2).2
  intro hnil
  subst hnil
  simp at hlen

/-- Witness for C1 at a concrete input. -/
theorem C1_witness :
    (preprocessReviews [str "b", str "a", str "b", str ""]).Nodup ∧
    str "a" ∈ preprocessReviews [str "b", str "a", str "b", str ""] :=
  ⟨(C1_review_normalizer [str "b", str "a", str "b", str ""]).2.1,
   (C1_review_normalizer [str "b", str "a", str "b", str ""]).2.2.2.1
     (str "a") (by decide)⟩

/-- Claim C2: a job that completes stores outputs whose flat-JSON CTA
and image-ad CTA (when those sub-objects are present) equal the first
preferred CTA exactly — given the FormData invariant that a first
preferred CTA is selected and non-empty — regardless of the CTA values
the generation collaborator returned. -/
theorem C2_cta_override (prev : Job) (fd : FormData) (env : Env) (now : Nat)
    (c : Str) (hc : fd.preferredCTA.headD [] = c) (hne : c ≠ [])
    (hdone : (processJob prev fd env now).status = .completed) :
    ∃ outs, (processJob prev fd env now).outputs = some outs ∧
      (∀ j, outs.json = some j → j.cta = c) ∧
      (∀ a, outs.imageAd = some a → a.cta = c) := by
  have hcta : ctaOf fd = c := by
    rw [ctaOf, jsHeadOr, hc, jsOrStr, if_neg hne]
  obtain ⟨p, hp, heq⟩ := processJob_completed hdone
  obtain ⟨_, ⟨rawOuts, hro, hp2⟩⟩ := runStages_ok hp
  have hjson : p.2.json = rawOuts.json.map (fun j => { j with cta := ctaOf fd }) := by
    rw [hp2]
  have himg : p.2.imageAd = rawOuts.imageAd.map (fun a => { a with cta := ctaOf fd }) := by
    rw [hp2]
  refine ⟨p.2, by rw [heq], ?_, ?_⟩
  · intro j hj
    rw [hjson] at hj
    obtain ⟨j0, hj0, hjj⟩ := Option.map_eq_some'.mp hj
    rw [← hjj, hcta]
  · intro a ha
    rw [himg] at ha
    obtain ⟨a0, ha0, haa⟩ := Option.map_eq_some'.mp ha
    rw [← haa, hcta]

/-- Witness for C2 at a concrete completed job. -/
theorem C2_witness :
    ∃ outs, (processJob (initJob fdSample 5) fdSample envSample 5).outputs = some outs ∧
      (∀ j, outs.json = some j → j.cta = str "Book now") ∧
      (∀ a, outs.imageAd = some a → a.cta = str "Book now") :=
  C2_cta_override (initJob fdSample 5) fdSample envSample 5 (str "Book now")
    (by decide) (by decide) (by decide)

/-- Claim C3: a successful insight extraction returns a review count
equal to the length of the review list actually sent, overwriting the
collaborator's reported count; through the pipeline, a completed job's
stored insights count the normalized reviews. -/
theorem C3_review_count :
    (∀ (reviews : List Str) (resp : Except Str Insights) (ins : Insights),
      extractInsights reviews resp = .ok ins →
      ins.reviewCount = (reviews.length : Int)) ∧
    (∀ (prev : Job) (fd : FormData) (env : Env) (now : Nat) (ins : Insights),
      (processJob prev fd env now).status = .completed →
      (processJob prev fd env now).insights = some ins →
      ins.reviewCount = ((preprocessReviewsText fd.reviews).length : Int)) := by
  constructor
  · intro reviews resp ins h
    cases resp with
    | error e => exact Except.noConfusion h
    | ok raw =>
      simp only [extractInsights, Except.map, Except.ok.injEq] at h
      rw [← h]
  · intro prev fd env now ins hs hins
    obtain ⟨p, hp, heq⟩ := processJob_completed hs
    obtain ⟨⟨rawIns, hri, hp1⟩, _⟩ := runStages_ok hp
    rw [heq] at hins
    simp only [Option.some.injEq] at hins
    rw [← hins, hp1]

/-- Witness for C3 at a concrete extraction. -/
theorem C3_witness :
    ({ insSample with reviewCount := (3 : Int) } : Insights).reviewCount =
      (([str "x", str "y", str "z"] : List Str).length : Int) :=
  C3_review_count.1 [str "x", str "y", str "z"] (.ok insSample)
    { insSample with reviewCount := (3 : Int) } (by rfl)

/-- Claim C4 as stated is false: a submission whose review text is all
whitespace also normalizes to fewer than 3 reviews, but its stored
message is the earlier guard's "No reviews provided", which does not
say that at least 3 reviews are required. -/
theorem C4_counterexample :
    (preprocessReviewsText fdBlankReviews.reviews).length < 3 ∧
    (processJob (initJob fdBlankReviews 5) fdBlankReviews envSample 5).status = .error ∧
    (processJob (initJob fdBlankReviews 5) fdBlankReviews envSample 5).errMsg =
      some (str "No reviews provided") ∧
    str "No reviews provided" ≠ str "At least 3 reviews are required" := by
  refine ⟨by decide, by decide, by decide, by decide⟩

/-- Claim C4, amended: a submission normalizing to fewer than 3 reviews
always ends in terminal `error`; the stored message is "At least 3
reviews are required" unless the raw text trims to empty, in which case
it is the earlier guard's "No reviews provided". -/
theorem C4_insufficient_reviews (prev : Job) (fd : FormData) (env : Env) (now : Nat)
    (h : (preprocessReviewsText fd.reviews).length < 3) :
    (processJob prev fd env now).status = .error ∧
    (processJob prev fd env now).errMsg =
      some (if trimChars fd.reviews = [] then str "No reviews provided"
        else str "At least 3 reviews are required") := by
  have hrun : runStages fd env =
      .error (if trimChars fd.reviews = [] then str "No reviews provided"
        else str "At least 3 reviews are required") := by
    by_cases ht : trimChars fd.reviews = []
    · simp [runStages, ht]
    · simp [runStages, ht, h]
  simp [processJob, hrun]

/-- Witness for the amended C4 at a concrete input. -/
theorem C4_witness :
    (processJob (initJob fdDupReviews 5) fdDupReviews envSample 5).status = .error ∧
    (processJob (initJob fdDupReviews 5) fdDupReviews envSample 5).errMsg =
      some (if trimChars fdDupReviews.reviews = [] then str "No reviews provided"
        else str "At least 3 reviews are required") :=
  C4_insufficient_reviews (initJob fdDupReviews 5) fdDupReviews envSample 5 (by decide)

/-- Claim C5: every stage failure after the job record exists is caught
and written as terminal `error` carrying the causal message; a body
that fails to parse (before any record exists) gets an immediate 500
response with the store untouched; and for every parsed body the
submission caller receives a job record in a terminal state, never an
exception. -/
theorem C5_error_propagation :
    (∀ (prev : Job) (fd : FormData) (env : Env) (now : Nat) (msg : Str),
      runStages fd env = .error msg →
      processJob prev fd env now = { prev with status := .error, errMsg := some msg }) ∧
    (∀ (store : List (Str × Job)) (e : Str) (now : Nat) (rand : Str) (env : Env),
      POST store (.error e) now rand env =
        (store, .failure 500 (str "Failed to process questionnaire"))) ∧
    (∀ (store : List (Str × Job)) (fd : FormData) (now : Nat) (rand : Str) (env : Env),
      ∃ job, (POST store (.ok fd) now rand env).2 = .success job ∧
        (job.status = .completed ∨ job.status = .error)) := by
  refine ⟨?_, fun store e now rand env => rfl, ?_⟩
  · intro prev fd env now msg h
    simp [processJob, h]
  · intro store fd now rand env
    refine ⟨processJob (initJob fd now) fd env now, rfl, ?_⟩
    cases hr : runStages fd env with
    | ok p => simp [processJob, hr]
    | error m => simp [processJob, hr]

/-- Witness for C5 at a concrete failing stage. -/
theorem C5_witness :
    processJob (initJob fdSample 5) fdSample envFail 5 =
      { initJob fdSample 5 with
        status := .error
        errMsg := some (str "Groq API error: boom") } :=
  C5_error_propagation.1 (initJob fdSample 5) fdSample envFail 5
    (str "Groq API error: boom") (by rfl)

/-- Claim C6: a submission whose six categorical selections are all
empty is rejected by the client-side guard, so the endpoint is never
called and no job record is created. -/
theorem C6_empty_selections (store : List (Str × Job)) (fd : FormData)
    (now : Nat) (rand : Str) (env : Env)
    (h : fd.businessType = [] ∧ fd.marketingGoal = [] ∧ fd.targetAudience = [] ∧
      fd.advertisingPlatform = [] ∧ fd.brandTone = [] ∧ fd.preferredCTA = []) :
    clientSubmit store fd now rand env = (store, none) := by
  have hrej : ∃ m, handleSubmit fd = .reject m := by
    unfold handleSubmit
    split_ifs with h1 h2 h3
    · exact ⟨_, rfl⟩
    · exact ⟨_, rfl⟩
    · exact ⟨_, rfl⟩
    · exact absurd (Or.inl h.1) h3
  obtain ⟨m, hm⟩ := hrej
  simp [clientSubmit, hm]

/-- Witness for C6 at a concrete all-empty submission. -/
theorem C6_witness :
    clientSubmit [] fdNoSelections 5 (str "abc") envSample = ([], none) :=
  C6_empty_selections [] fdNoSelections 5 (str "abc") envSample (by decide)

/-- Claim C7 as stated is false: with brand tones `friendly` then
`professional` selected, the first selection is `friendly`, which the
claim maps to "warm, welcoming", but the code joins all selections and
tests `professional` first, producing "calm, confident". -/
theorem C7_counterexample :
    fdMixedTone.brandTone.headD [] = str "friendly" ∧
    moodOf fdMixedTone = str "calm, confident" ∧
    str "calm, confident" ≠ str "warm, welcoming" := by
  refine ⟨by decide, by decide, by decide⟩

/-- Claim C7, amended: the mood is derived from the comma-joined string
of all brand-tone selections, lower-cased, by substring tests in the
fixed priority order professional, friendly, bold, premium, with
default "calm, confident"; when exactly one tone is selected the
claimed first-selection table holds. -/
theorem C7_mood_lookup (fd : FormData) (t : Str) (h : fd.brandTone = [t]) :
    (t = str "Professional" → moodOf fd = str "calm, confident") ∧
    (t = str "Friendly" → moodOf fd = str "warm, welcoming") ∧
    (t = str "Bold" → moodOf fd = str "energetic, modern") ∧
    (t = str "Premium" → moodOf fd = str "elegant, refined") ∧
    (t = str "Quirky" → moodOf fd = str "calm, confident") := by
  have hm : moodOf fd =
      getMoodFromBrandTone (jsOrStr (joinSep (str ", ") [t]) (str "Professional")) := by
    rw [moodOf, h]
  refine ⟨?_, ?_, ?_, ?_, ?_⟩ <;> (rintro rfl; rw [hm]; decide)

/-- Witness for the amended C7 at a concrete single-tone submission. -/
theorem C7_witness : moodOf fdBoldTone = str "energetic, modern" :=
  (C7_mood_lookup fdBoldTone (str "Bold") (by decide)).2.2.1 (by decide)

/-- Claim C8: image generation walks the ordered candidate list and
returns the first binary-image response as a data URL — in particular,
when the first two candidates fail and the third returns an image, the
result is the third candidate's image; it fails only when every
candidate fails, with a message aggregating the last failure seen. -/
theorem C8_image_fallback (k : Str) (resp : Str → HFResponse) :
    (∀ ct body errText,
      hfFails (resp (str "stabilityai/stable-diffusion-xl-base-1.0")) = true →
      hfFails (resp (str "runwayml/stable-diffusion-v1-5")) = true →
      resp (str "stabilityai/stable-diffusion-2-1") = .okResp (some ct) body errText →
      (str "image/").isPrefixOf ct = true →
      generateAdImage (some k) resp = .ok (str "data:" ++ ct ++ str ";base64," ++ body)) ∧
    ((∀ m ∈ hfModels, hfFails (resp m) = true) →
      generateAdImage (some k) resp = .error (str "Failed to generate image: " ++
        allFailedMsg (hfFailMsg (resp (str "stabilityai/stable-diffusion-2-1"))))) ∧
    (∀ e, generateAdImage (some k) resp = .error e →
      ∀ m ∈ hfModels, hfFails (resp m) = true) := by
  refine ⟨?_, ?_, ?_⟩
  · intro ct body errText h1 h2 h3 h4
    have hloop : tryModels resp hfModels [] =
        .ok (str "data:" ++ ct ++ str ";base64," ++ body) := by
      show tryModels resp (str "stabilityai/stable-diffusion-xl-base-1.0" ::
        str "runwayml/stable-diffusion-v1-5" ::
        str "stabilityai/stable-diffusion-2-1" :: []) [] = _
      rw [tryModels_cons_fail h1, tryModels_cons_fail h2]
      simp [tryModels, h3, h4, List.append_assoc]
    simp [generateAdImage, hloop]
  · intro hall
    have f1 := hall (str "stabilityai/stable-diffusion-xl-base-1.0") (by simp [hfModels])
    have f2 := hall (str "runwayml/stable-diffusion-v1-5") (by simp [hfModels])
    have f3 := hall (str "stabilityai/stable-diffusion-2-1") (by simp [hfModels])
    have hloop : tryModels resp hfModels [] =
        .error (allFailedMsg (hfFailMsg (resp (str "stabilityai/stable-diffusion-2-1")))) := by
      show tryModels resp (str "stabilityai/stable-diffusion-xl-base-1.0" ::
        str "runwayml/stable-diffusion-v1-5" ::
        str "stabilityai/stable-diffusion-2-1" :: []) [] = _
      rw [tryModels_cons_fail f1, tryModels_cons_fail f2, tryModels_cons_fail f3]
      rfl
    simp [generateAdImage, hloop]
  · intro e he m hm
    by_contra hno
    have hf : hfFails (resp m) = false := by
      cases hb : hfFails (resp m)
      · rfl
      · exact absurd hb hno
    obtain ⟨url, hurl⟩ := tryModels_any_success hfModels [] ⟨m, hm, hf⟩
    rw [generateAdImage, hurl] at he
    exact Except.noConfusion he

/-- Witness for C8: the first candidate errors, the second is loading,
the third returns a PNG, and the result is the third candidate's
image. -/
theorem C8_witness :
    generateAdImage (some (str "key")) respSample =
      .ok (str "data:image/png;base64,AAAA") := by
  have h := (C8_image_fallback (str "key") respSample).1 (str "image/png")
    (str "AAAA") [] (by decide) (by decide) (by rfl) (by decide)
  have h2 : str "data:" ++ str "image/png" ++ str ";base64," ++ str "AAAA" =
      str "data:image/png;base64,AAAA" := by decide
  rw [← h2]
  exact h

/-- Claim C9 as stated is false: job identifiers are built from the
submission timestamp and a random suffix, so two distinct submissions
processed with the same timestamp and suffix receive the same
identifier, and the second overwrites the first's store entry, leaving
a single entry for two submissions. -/
theorem C9_counterexample :
    fdSample ≠ fdSample2 ∧
    (∃ j1, (POST [] (.ok fdSample) 5 (str "abc") envSample).2 = .success j1) ∧
    (∃ j2, (POST (POST [] (.ok fdSample) 5 (str "abc") envSample).1
      (.ok fdSample2) 5 (str "abc") envSample).2 = .success j2) ∧
    (POST (POST [] (.ok fdSample) 5 (str "abc") envSample).1
      (.ok fdSample2) 5 (str "abc") envSample).1.length = 1 := by
  refine ⟨by decide, ⟨_, rfl⟩, ⟨_, rfl⟩, by decide⟩

/-- Claim C9, amended: identifiers coincide only when both the
timestamp and the random suffix coincide — any difference in either
yields distinct identifiers — and a submission whose identifier is not
already in the store adds exactly one entry, leaving all other keys
unchanged. -/
theorem C9_job_identity :
    (∀ (t1 : Nat) (r1 : Str) (t2 : Nat) (r2 : Str), (t1, r1) ≠ (t2, r2) →
      jobIdOf t1 r1 ≠ jobIdOf t2 r2) ∧
    (∀ (store : List (Str × Job)) (fd : FormData) (now : Nat) (rand : Str) (env : Env),
      lookupEntry store (jobIdOf now rand) = none →
      (POST store (.ok fd) now rand env).1.length = store.length + 1 ∧
      ∀ k, k ≠ jobIdOf now rand →
        lookupEntry (POST store (.ok fd) now rand env).1 k = lookupEntry store k) := by
  constructor
  · intro t1 r1 t2 r2 hne heq
    obtain ⟨ht, hr⟩ := jobIdOf_inj heq
    exact hne (by rw [ht, hr])
  · intro store fd now rand env habs
    constructor
    · show (setEntry (setEntry store (jobIdOf now rand) (initJob fd now)) (jobIdOf now rand)
        (processJob (initJob fd now) fd env now)).length = store.length + 1
      rw [setEntry_length_present _ _ _ (initJob fd now)
        (lookupEntry_setEntry_self store (jobIdOf now rand) (initJob fd now))]
      exact setEntry_length_absent store (jobIdOf now rand) (initJob fd now) habs
    · intro k hk
      show lookupEntry (setEntry (setEntry store (jobIdOf now rand) (initJob fd now))
        (jobIdOf now rand) (processJob (initJob fd now) fd env now)) k = lookupEntry store k
      rw [lookupEntry_setEntry_ne _ _ _ _ hk, lookupEntry_setEntry_ne _ _ _ _ hk]

/-- Witness for the amended C9 at concrete identifiers and store. -/
theorem C9_witness :
    jobIdOf 5 (str "abc") ≠ jobIdOf 6 (str "abc") ∧
    (POST [] (.ok fdSample) 5 (str "abc") envSample).1.length = 0 + 1 :=
  ⟨C9_job_identity.1 5 (str "abc") 6 (str "abc") (by decide),
   (C9_job_identity.2 [] fdSample 5 (str "abc") envSample (by decide)).1⟩

/-- Claim C10: when a stage fails after the initial job record was
written, the terminal write keeps `formData` and `createdAt` unchanged,
attaches no insights and no outputs, and changes only the status and
the error message. -/
theorem C10_error_frame (fd : FormData) (t now : Nat) (env : Env) (msg : Str)
    (h : runStages fd env = .error msg) :
    (processJob (initJob fd t) fd env now).formData = fd ∧
    (processJob (initJob fd t) fd env now).createdAt = t ∧
    (processJob (initJob fd t) fd env now).insights = none ∧
    (processJob (initJob fd t) fd env now).outputs = none ∧
    (processJob (initJob fd t) fd env now).status = .error ∧
    (processJob (initJob fd t) fd env now).errMsg = some msg := by
  simp [processJob, h, initJob]

/-- Witness for C10 at a concrete failing environment. -/
theorem C10_witness :
    (processJob (initJob fdSample 7) fdSample envFail 7).formData = fdSample ∧
    (processJob (initJob fdSample 7) fdSample envFail 7).createdAt = 7 ∧
    (processJob (initJob fdSample 7) fdSample envFail 7).insights = none ∧
    (processJob (initJob fdSample 7) fdSample envFail 7).outputs = none ∧
    (processJob (initJob fdSample 7) fdSample envFail 7).status = .error ∧
    (processJob (initJob fdSample 7) fdSample envFail 7).errMsg =
      some (str "Groq API error: boom") :=
  C10_error_frame fdSample 7 7 envFail (str "Groq API error: boom") (by rfl)
